import Mathlib

/-!
# Verification of the squad_map_randomizer rotation engine

A shallow embedding of `squad_map_randomizer.py` (the constrained
random-sampling engine that builds a map rotation), together with proofs of
the specification's testable properties.

Python values (parsed JSON/YAML) are embedded as the inductive type `Value`;
exceptions are embedded as `Except PyErr`; the `random.choice` calls are
embedded by threading an oracle `o : Nat → Nat` (the stream of random draws)
and a draw counter.
-/

namespace SquadMapRandomizer

/-- A Python value as it appears in the parsed JSON layers file and the parsed
YAML rotation config: `None`, booleans, integers, strings, lists, and
(string-keyed) dicts. Dicts are embedded as association lists in insertion
order; `dict.get` takes the first binding of a key. -/
inductive Value where
  | vNull : Value
  | vBool (b : Bool) : Value
  | vInt (n : Int) : Value
  | vStr (s : String) : Value
  | vList (l : List Value) : Value
  | vDict (d : List (String × Value)) : Value

mutual

/-- Boolean equality on `Value` (Python `==` on these values), written by
hand with structural recursion because the automatic deriver does not handle
the nested lists. -/
def valueBEq : Value → Value → Bool
  | .vNull, .vNull => true
  | .vBool a, .vBool b => a == b
  | .vInt a, .vInt b => a == b
  | .vStr a, .vStr b => a == b
  | .vList l1, .vList l2 => listBEq l1 l2
  | .vDict d1, .vDict d2 => dictBEq d1 d2
  | _, _ => false
termination_by structural a => a

/-- Boolean equality on lists of values. -/
def listBEq : List Value → List Value → Bool
  | [], [] => true
  | a :: as, b :: bs => valueBEq a b && listBEq as bs
  | _, _ => false
termination_by structural a => a

/-- Boolean equality on string-keyed association lists of values. -/
def dictBEq : List (String × Value) → List (String × Value) → Bool
  | [], [] => true
  | (k1, v1) :: as, (k2, v2) :: bs => k1 == k2 && valueBEq v1 v2 && dictBEq as bs
  | _, _ => false
termination_by structural a => a

end

theorem sizeOf_pos_value (v : Value) : 0 < sizeOf v := by
  cases v <;> simp

theorem listBEq_iff : ∀ l1 l2 : List Value,
    (∀ x ∈ l1, ∀ b : Value, valueBEq x b = true ↔ x = b) →
    (listBEq l1 l2 = true ↔ l1 = l2) := by
  intro l1
  induction l1 with
  | nil => intro l2 _; cases l2 <;> simp [listBEq]
  | cons a as ihl =>
    intro l2 ih
    cases l2 with
    | nil => simp [listBEq]
    | cons b bs =>
      rw [show listBEq (a :: as) (b :: bs) = (valueBEq a b && listBEq as bs) from rfl,
        Bool.and_eq_true, ih a (by simp) b,
        ihl bs (fun x hx c => ih x (by simp [hx]) c)]
      simp

theorem dictBEq_iff : ∀ d1 d2 : List (String × Value),
    (∀ x ∈ d1, ∀ b : Value, valueBEq x.2 b = true ↔ x.2 = b) →
    (dictBEq d1 d2 = true ↔ d1 = d2) := by
  intro d1
  induction d1 with
  | nil => intro d2 _; cases d2 <;> simp [dictBEq]
  | cons a as ihl =>
    intro d2 ih
    cases d2 with
    | nil => simp [dictBEq]
    | cons b bs =>
      rw [show dictBEq (a :: as) (b :: bs) =
            (a.1 == b.1 && valueBEq a.2 b.2 && dictBEq as bs) from rfl,
        Bool.and_eq_true, Bool.and_eq_true, beq_iff_eq, ih a (by simp) b.2,
        ihl bs (fun x hx c => ih x (by simp [hx]) c)]
      constructor
      · rintro ⟨⟨h1, h2⟩, h3⟩
        rw [Prod.ext h1 h2, h3]
      · intro h
        rw [List.cons.injEq] at h
        exact ⟨⟨congrArg Prod.fst h.1, congrArg Prod.snd h.1⟩, h.2⟩

theorem valueBEq_iff_aux : ∀ (n : Nat) (a b : Value), sizeOf a ≤ n →
    (valueBEq a b = true ↔ a = b) := by
  intro n
  induction n with
  | zero =>
    intro a b h
    exact absurd h (by have := sizeOf_pos_value a; omega)
  | succ n ih =>
    intro a b h
    cases a with
    | vNull => cases b <;> simp [valueBEq]
    | vBool x => cases b <;> simp [valueBEq]
    | vInt x => cases b <;> simp [valueBEq]
    | vStr x => cases b <;> simp [valueBEq]
    | vList l1 =>
      cases b with
      | vList l2 =>
        have hsz : sizeOf l1 ≤ n := by simp at h; omega
        have helem : ∀ x ∈ l1, ∀ c : Value, valueBEq x c = true ↔ x = c :=
          fun x hx c => ih x c (by have := List.sizeOf_lt_of_mem hx; omega)
        rw [show valueBEq (.vList l1) (.vList l2) = listBEq l1 l2 from rfl,
          listBEq_iff l1 l2 helem]
        simp
      | vNull => simp [valueBEq]
      | vBool _ => simp [valueBEq]
      | vInt _ => simp [valueBEq]
      | vStr _ => simp [valueBEq]
      | vDict _ => simp [valueBEq]
    | vDict d1 =>
      cases b with
      | vDict d2 =>
        have hsz : sizeOf d1 ≤ n := by simp at h; omega
        have helem : ∀ x ∈ d1, ∀ c : Value, valueBEq x.2 c = true ↔ x.2 = c := by
          intro x hx c
          refine ih x.2 c ?_
          have h1 := List.sizeOf_lt_of_mem hx
          have h2 : sizeOf x.2 < sizeOf x := by
            cases x with
            | mk k v => simp
          omega
        rw [show valueBEq (.vDict d1) (.vDict d2) = dictBEq d1 d2 from rfl,
          dictBEq_iff d1 d2 helem]
        simp
      | vNull => simp [valueBEq]
      | vBool _ => simp [valueBEq]
      | vInt _ => simp [valueBEq]
      | vStr _ => simp [valueBEq]
      | vList _ => simp [valueBEq]

theorem valueBEq_iff (a b : Value) : valueBEq a b = true ↔ a = b :=
  valueBEq_iff_aux (sizeOf a) a b le_rfl

instance : DecidableEq Value :=
  fun a b => decidable_of_iff (valueBEq a b = true) (valueBEq_iff a b)

/-- Python exceptions that the embedded code can raise. `invalidConfig`
embeds the script's own `InvalidConfigException`; `typeError` and
`indexError` embed the builtin `TypeError` and `IndexError`. -/
inductive PyErr where
  | invalidConfig (msg : String) : PyErr
  | typeError (msg : String) : PyErr
  | indexError (msg : String) : PyErr
  | keyError (key : String) : PyErr
  | attributeError (msg : String) : PyErr
deriving DecidableEq

/-- Decidable equality on `Except` results, for evaluating the embedded
functions at concrete inputs. -/
instance {ε α : Type} [DecidableEq ε] [DecidableEq α] : DecidableEq (Except ε α) :=
  fun a b =>
    match a, b with
    | .error e1, .error e2 =>
      match decEq e1 e2 with
      | isTrue h => isTrue (h ▸ rfl)
      | isFalse h => isFalse (fun e => h (Except.error.inj e))
    | .error _, .ok _ => isFalse (fun h => Except.noConfusion h)
    | .ok _, .error _ => isFalse (fun h => Except.noConfusion h)
    | .ok a1, .ok a2 =>
      match decEq a1 a2 with
      | isTrue h => isTrue (h ▸ rfl)
      | isFalse h => isFalse (fun e => h (Except.ok.inj e))

/-- `d.get(k)` on a Python dict: the value bound to `k`, or `None` when the
key is absent. On a non-dict receiver Python raises `AttributeError`; this
total model returns `None` there instead. The embedding guards the one call
site whose receiver the source does not force to be a mapping and whose
error class a claim depends on — the `config.get` calls of
`validate_config`, gated in `validateConfigChecked` — through an explicit
`AttributeError` branch rather than through this fallback; the remaining
unguarded receivers are catalog layers (`layer.get` in the filter), where
the theorems below never rely on the fallback's value. -/
def pyGet (v : Value) (k : String) : Value :=
  match v with
  | .vDict d =>
    match d.find? (fun kv => kv.1 == k) with
    | some kv => kv.2
    | none => .vNull
  | _ => .vNull

/-- `d.get(k, dflt)` on a Python dict: a present key wins even when it is
bound to `None`; only an absent key yields the default. Non-dict receivers
fall back to the default, with the same caveat as `pyGet`. -/
def pyGetD (v : Value) (k : String) (dflt : Value) : Value :=
  match v with
  | .vDict d =>
    match d.find? (fun kv => kv.1 == k) with
    | some kv => kv.2
    | none => dflt
  | _ => dflt

/-- `v[k]` subscript access on a Python value: a dict yields the bound value
or raises `KeyError` when the key is absent; any other value raises
`TypeError` (not subscriptable by a string key). -/
def pyGetItem (v : Value) (k : String) : Except PyErr Value :=
  match v with
  | .vDict d =>
    match d.find? (fun kv => kv.1 == k) with
    | some kv => .ok kv.2
    | none => .error (.keyError k)
  | _ => .error (.typeError "object is not subscriptable")

/-- A list comprehension `[layer[k] for layer in ls]`: eager, failing with
the first raising subscript. -/
def mapGetItem (k : String) : List Value → Except PyErr (List Value)
  | [] => .ok []
  | l :: rest =>
    match pyGetItem l k with
    | .error e => .error e
    | .ok v =>
      match mapGetItem k rest with
      | .error e => .error e
      | .ok vs => .ok (v :: vs)

/-- `k in v` for a dict receiver: the key is present (possibly bound to
`None`). -/
def hasKey (v : Value) (k : String) : Bool :=
  match v with
  | .vDict d => (d.find? (fun kv => kv.1 == k)).isSome
  | _ => false

/-- `isinstance(v, str)`. -/
def isStr : Value → Bool
  | .vStr _ => true
  | _ => false

/-- Python truthiness of a value (used for the `not m['bugged']` test in
`get_json_layers`). -/
def pyTruthy : Value → Bool
  | .vNull => false
  | .vBool b => b
  | .vInt n => n != 0
  | .vStr s => !s.isEmpty
  | .vList l => !l.isEmpty
  | .vDict d => !d.isEmpty

/-- ASCII lowercasing of one character. -/
def asciiLower (c : Char) : Char :=
  if 'A' ≤ c ∧ c ≤ 'Z' then Char.ofNat (c.toNat + 32) else c

/-- `str.casefold()`; on the ASCII keywords compared in this script it
coincides with ASCII lowercasing. -/
def pyCasefold (s : String) : String := ⟨s.data.map asciiLower⟩

/-- The final step of `get_json_layers` (line 95): discard every layer whose
value under the key `bugged` is truthy. The file/URL I/O around it is an
external collaborator and is not modelled. -/
def filterBugged (all_layers : List Value) : List Value :=
  all_layers.filter (fun m => !pyTruthy (pyGet m "bugged"))

/-- `upgrade_to_list` from `get_map_rotation`: return the value unchanged if
it is already a list, else wrap it in a singleton list. -/
def upgrade_to_list (v : Value) : List Value :=
  match v with
  | .vList l => l
  | _ => [v]

/-- The key normalization of `apply_filter_config`: a dict key `k` is wrapped
into the list `[k]` by `upgrade_to_list`, and then, if `'team' in key`, the
key list is replaced by `['team1', 'team2']`. Since the wrapped list is a
singleton, the membership test is simply `k = 'team'`. -/
def expandKey (k : String) : List String :=
  if k = "team" then ["team1", "team2"] else [k]

/-- One clause of `apply_filter_config`'s comprehension, for a single
`key, value` pair of the filter dict (lines 179-180):
`[layer for layer in filtered_layers for k in key if layer.get(k) in value]`.
Note that a layer is emitted once per matching expanded key, so a layer
matching on both `team1` and `team2` appears twice. -/
def filterClause (layers : List Value) (k : String) (v : Value) : List Value :=
  layers.flatMap (fun layer =>
    (expandKey k).filterMap (fun kk =>
      if pyGet layer kk ∈ upgrade_to_list v then some layer else none))

/-- `apply_filter_config` (lines 156-181): the sentinel string `any`
(case-insensitively) skips filtering; a dict applies each of its clauses in
turn, so the clauses are AND-ed. On a non-`any` string or another non-dict
value Python raises `AttributeError` (no `.items()`); such filter specs are
rejected by `validate_config` and never reach this function in a validated
run, and this total model returns `[]` for them. -/
def apply_filter_config (remaining_layers : List Value) (filter_config : Value) :
    List Value :=
  match filter_config with
  | .vStr s => if pyCasefold s = "any" then remaining_layers else []
  | .vDict d => d.foldl (fun acc kv => filterClause acc kv.1 kv.2) remaining_layers
  | _ => []

/-! ## The duplicate-avoidance selector (`get_nonduplicate_map`) -/

/-- The clamp at lines 117-118:
`max(1, min(len(chosen_rotation), min_layers_before_duplicate_map))`,
always at least 1, so it is returned as a `Nat`. -/
def clampMinDist (rotLen : Nat) (minDist : Int) : Nat :=
  (max 1 (min (rotLen : Int) minDist)).toNat

/-- Python `l[-n:]` for `n ≥ 1`: the trailing `min n (length l)` entries. -/
def lastN (n : Nat) (l : List Value) : List Value :=
  l.drop (l.length - n)

/-- `layers_to_avoid_duplicating` (line 122): the recency window, the
trailing clamped-min-distance entries of the rotation so far. -/
def avoidLayers (chosen_rotation : List Value) (minDist : Int) : List Value :=
  lastN (clampMinDist chosen_rotation.length minDist) chosen_rotation

/-- The `map` fields of the recency window, against which a candidate's
`map` field is compared (line 125), as they come out on the success path of
the comprehension. The loop itself extracts them fallibly with `mapGetItem`
(a window entry lacking the key raises `KeyError`); `mapGetItem` returns
exactly this list when every window entry carries the key. -/
def avoidMaps (chosen_rotation : List Value) (minDist : Int) : List Value :=
  (avoidLayers chosen_rotation minDist).map (fun layer => pyGet layer "map")

/-- One `random.choice(pool)` draw: the oracle value at the current draw
counter, reduced mod the pool size. Defined for nonempty pools; the caller
checks emptiness (Python raises `IndexError` on an empty pool). -/
def pyChoice (o : Nat → Nat) (c : Nat) (pool : List Value) : Value :=
  pool.getD (o c % pool.length) .vNull

/-- The `for _ in range(100)` retry loop of `get_nonduplicate_map`
(lines 123-137). `fuel` is the number of attempts left (100 initially), `c`
the draw counter, `window` the recency window (line 122). Each iteration,
in Python's evaluation order: draw a candidate (`IndexError` on an empty
pool), subscript its `map` field (line 125, `KeyError`/`TypeError`
possible), build the window's `map` list (the line 125 comprehension, same
errors), and test membership. On acceptance the candidate is returned with
the flag `false`. On a collision the debug-log branch runs: the window's
`layer` fields are subscripted and joined (lines 130-131; `join` raises
`TypeError` on a non-string), then the candidate's `layer` field is
subscripted for the message (line 133), and the loop retries. The flag is
`true` exactly when the loop exhausted all attempts and the
`logging.error` at line 136 fired before returning the last drawn
candidate (its `layer` subscript there repeats the one from line 133 and
cannot newly fail). -/
def nondupLoop (o : Nat → Nat) (pool : List Value) (window : List Value) :
    Nat → Nat → Except PyErr (Value × Nat × Bool)
  | 0, _ => .error (.indexError "loop entered with zero fuel")
  | fuel + 1, c =>
    if pool.isEmpty then .error (.indexError "random.choice on an empty list")
    else
      let cand := pyChoice o c pool
      match pyGetItem cand "map" with
      | .error e => .error e
      | .ok candMap =>
        match mapGetItem "map" window with
        | .error e => .error e
        | .ok windowMaps =>
          if candMap ∈ windowMaps then
            match mapGetItem "layer" window with
            | .error e => .error e
            | .ok windowLayers =>
              if windowLayers.all isStr then
                match pyGetItem cand "layer" with
                | .error e => .error e
                | .ok _ =>
                  match fuel with
                  | 0 => .ok (cand, c + 1, true)
                  | _ + 1 => nondupLoop o pool window fuel (c + 1)
              else .error (.typeError "sequence item: expected str instance")
          else .ok (cand, c + 1, false)

/-- `get_nonduplicate_map` (lines 106-137): clamp the minimum distance, form
the recency window, and run the bounded retry loop (100 attempts). -/
def get_nonduplicate_map (o : Nat → Nat) (c : Nat)
    (available_layers chosen_rotation : List Value) (minDist : Int) :
    Except PyErr (Value × Nat × Bool) :=
  nondupLoop o available_layers (avoidLayers chosen_rotation minDist) 100 c

/-! ## The rotation builder (`populate_chosen_rotation`, `get_map_rotation`) -/

/-- `list.remove(x)` on a Python list: delete the first element equal to `x`.
(Python raises `ValueError` when `x` is absent; in the builder the removed
layer was just drawn from a subset of the list, so it is always present.) -/
def pyRemoveFirst : List Value → Value → List Value
  | [], _ => []
  | a :: rest, x => if a = x then rest else a :: pyRemoveFirst rest x

/-- The `logging.error` message of line 194. -/
def noMapsMsg : String := "No maps to choose from after applying filter. Skipping this filter."

/-- The `logging.error` message of line 136. -/
def dupMsg : String := "Could not get a valid map without duplicates. Choosing anyways."

/-- The mutable state threaded through `populate_chosen_rotation`:
the chosen rotation, the remaining (working) pool, the draw counter for the
random oracle, the log of `logging.error` messages, and a ghost field
`calls` recording each candidate pool ever passed to
`get_nonduplicate_map` (used to state that the selector is never invoked on
an empty pool). -/
structure BState where
  chosen : List Value
  remaining : List Value
  ctr : Nat
  logs : List String
  calls : List (List Value)
deriving DecidableEq

/-- One iteration of the `for idx, filter_config in enumerate(maps_config)`
loop in `populate_chosen_rotation` (lines 189-203): filter the remaining
pool; on an empty result log an error and skip the slot; otherwise draw a
nonduplicate layer from the filtered subset, append it to the rotation and
remove it from the remaining pool. -/
def populateStep (o : Nat → Nat) (minDist : Int) (st : BState) (fc : Value) :
    Except PyErr BState :=
  let filtered := apply_filter_config st.remaining fc
  if filtered.isEmpty then
    .ok { st with logs := st.logs ++ [noMapsMsg] }
  else
    match get_nonduplicate_map o st.ctr filtered st.chosen minDist with
    | .error e => .error e
    | .ok (cand, c, flag) =>
      .ok { chosen := st.chosen ++ [cand]
            remaining := pyRemoveFirst st.remaining cand
            ctr := c
            logs := st.logs ++ (if flag then [dupMsg] else [])
            calls := st.calls ++ [filtered] }

/-- `populate_chosen_rotation` (lines 183-203) over a list of filter
specifications. -/
def populate_chosen_rotation (o : Nat → Nat) (minDist : Int) (st : BState) :
    List Value → Except PyErr BState
  | [] => .ok st
  | fc :: rest =>
    match populateStep o minDist st fc with
    | .error e => .error e
    | .ok st1 => populate_chosen_rotation o minDist st1 rest

/-- Python iteration over a config section value (`for ... in maps_config`
and `for filter_config in config`): lists iterate their elements, strings
their characters, dicts their keys; other values raise `TypeError`. -/
def pyIterList (v : Value) : Except PyErr (List Value) :=
  match v with
  | .vList l => .ok l
  | .vStr s => .ok (s.data.map (fun ch => .vStr (String.singleton ch)))
  | .vDict d => .ok (d.map (fun kv => .vStr kv.1))
  | _ => .error (.typeError "object is not iterable")

/-- `range(x)` applied to `config.get('number_of_repeats', 1)`: an int gives
its (clamped to 0) iteration count, a bool counts as the int 0 or 1, and any
other value raises `TypeError`. -/
def pyRangeCount (v : Value) : Except PyErr Nat :=
  match v with
  | .vInt n => .ok n.toNat
  | .vBool b => .ok (if b then 1 else 0)
  | _ => .error (.typeError "range argument is not an integer")

/-- The `for _ in range(number_of_repeats)` loop of lines 222-224: run
`populate_chosen_rotation` on the `regular_maps` section the given number of
times. -/
def repeatPopulate (o : Nat → Nat) (minDist : Int) (specs : List Value) :
    Nat → BState → Except PyErr BState
  | 0, st => .ok st
  | n + 1, st =>
    match populate_chosen_rotation o minDist st specs with
    | .error e => .error e
    | .ok st1 => repeatPopulate o minDist specs n st1

/-- The body of `get_map_rotation` (lines 205-226) returning the full final
builder state. `copy.deepcopy` of the input layers is the identity in this
pure model. `starting_maps` defaults to the empty list (line 212),
`number_of_repeats` to 1, and `regular_maps` uses `.get` with default
`None`, so a missing `regular_maps` raises `TypeError` when iterated. -/
def buildState (o : Nat → Nat) (rotation_config : Value) (all_layers : List Value)
    (minDist : Int) : Except PyErr BState :=
  let st0 : BState := ⟨[], all_layers, 0, [], []⟩
  match pyIterList (pyGetD rotation_config "starting_maps" (.vList [])) with
  | .error e => .error e
  | .ok startSpecs =>
    match populate_chosen_rotation o minDist st0 startSpecs with
    | .error e => .error e
    | .ok st1 =>
      match pyRangeCount (pyGetD rotation_config "number_of_repeats" (.vInt 1)) with
      | .error e => .error e
      | .ok n =>
        match pyIterList (pyGet rotation_config "regular_maps") with
        | .error e => .error e
        | .ok regSpecs => repeatPopulate o minDist regSpecs n st1

/-- `get_map_rotation` (lines 140-226): the chosen rotation produced by the
builder. -/
def get_map_rotation (o : Nat → Nat) (rotation_config : Value)
    (all_layers : List Value) (minDist : Int) : Except PyErr (List Value) :=
  match buildState o rotation_config all_layers minDist with
  | .error e => .error e
  | .ok st => .ok st.chosen

/-! ## The config validator (`validate_helper`, `validate_config`) -/

/-- The inner `key_is_team` conditional of `validate_helper` (lines 263-266):
the key is `team` and every layer has non-null `team1` and `team2` values. -/
def key_is_team (layers : List Value) (k : String) : Bool :=
  k == "team" &&
    layers.all (fun layer => decide (pyGet layer "team1" ≠ Value.vNull)) &&
    layers.all (fun layer => decide (pyGet layer "team2" ≠ Value.vNull))

/-- The `for key in filter_config.keys()` loop of lines 282-284: a key that
is not the accepted team alias and is absent or null on some layer raises
`InvalidConfigException`. -/
def checkFilterKeys (layers : List Value) : List String → Except PyErr Unit
  | [] => .ok ()
  | k :: rest =>
    if !key_is_team layers k &&
        !layers.all (fun layer => decide (pyGet layer k ≠ Value.vNull)) then
      .error (.invalidConfig "Key is not a valid key to filter by")
    else checkFilterKeys layers rest

/-- The body of `validate_helper`'s `for filter_config in config` loop
(lines 268-284) for one filter spec: a string must be the `any` sentinel, a
non-mapping is rejected, and a mapping has all its keys checked. -/
def checkFilterConfig (layers : List Value) (fc : Value) : Except PyErr Unit :=
  match fc with
  | .vStr s =>
    if pyCasefold s = "any" then .ok ()
    else .error (.invalidConfig "Invalid values for config section")
  | .vDict d => checkFilterKeys layers (d.map (fun kv => kv.1))
  | _ => .error (.invalidConfig "Given config has invalid type or structure")

/-- The `for filter_config in config` loop of `validate_helper`, over the
already-obtained iteration list. -/
def validateHelperList (layers : List Value) : List Value → Except PyErr Unit
  | [] => .ok ()
  | fc :: rest =>
    match checkFilterConfig layers fc with
    | .error e => .error e
    | .ok _ => validateHelperList layers rest

/-- `validate_helper` (lines 256-285). Iterating the config section raises
`TypeError` when it is not iterable — in particular when a present-but-null
`starting_maps` slips through `validate_config`'s guarded check. -/
def validate_helper (config : Value) (layers : List Value) : Except PyErr Unit :=
  match pyIterList config with
  | .error e => .error e
  | .ok items => validateHelperList layers items

/-- `isinstance(v, list) and len(v) >= 1`. -/
def isNonEmptyList : Value → Bool
  | .vList l => !l.isEmpty
  | _ => false

/-- `isinstance(v, collections.Mapping)`. -/
def isDict : Value → Bool
  | .vDict _ => true
  | _ => false

/-- `v is not None`. -/
def vNotNull : Value → Bool
  | .vNull => false
  | _ => true

/-- The `number_of_repeats` check of lines 319-322, as the accepted
condition: `isinstance(v, int) and v >= 1`. Python `bool` is a subclass of
`int` with `True == 1` and `False == 0`, so `True` is accepted. -/
def repeatsValid : Value → Bool
  | .vInt n => decide (1 ≤ n)
  | .vBool b => b
  | _ => false

/-- The message of the `AttributeError` raised by `config.get` on a
non-mapping config. -/
def attrGetMsg : String := "object has no attribute get"

/-- The checks of `validate_config` after the layers themselves have been
validated (lines 304-327). On a non-mapping config (for example the `None`
that `yaml.load` returns for an empty file) the very first `config.get`
call at line 306 raises `AttributeError`; a mapping config reaches the
field checks: `regular_maps` must be a non-empty list; `starting_maps`
defaults to `['any']` and, only when it is not `None`, must be a non-empty
list; `number_of_repeats` defaults to 1 and must be a positive integer;
finally both sections run through `validate_helper`. -/
def validateConfigChecked (config : Value) (ls : List Value) : Except PyErr Unit :=
  if !isDict config then .error (.attributeError attrGetMsg)
  else
  let rm := pyGet config "regular_maps"
  if !isNonEmptyList rm then
    .error (.invalidConfig "Missing or invalid regular_maps key in config")
  else
    let sm := pyGetD config "starting_maps" (.vList [.vStr "any"])
    if vNotNull sm && !isNonEmptyList sm then
      .error (.invalidConfig "Given starting_maps key is invalid. Should be a list.")
    else
      if !repeatsValid (pyGetD config "number_of_repeats" (.vInt 1)) then
        .error (.invalidConfig "Invalid number_of_repeats value in config")
      else
        match validate_helper sm ls with
        | .error e => .error e
        | .ok _ => validate_helper rm ls

/-- `validate_config` (lines 288-327): first the given layers must be a
non-empty list of mappings, then the config checks run. -/
def validate_config (config : Value) (layers : Value) : Except PyErr Unit :=
  match layers with
  | .vList ls =>
    if ls.isEmpty || !ls.all isDict then
      .error (.invalidConfig "The given layers to check the config against is invalid")
    else validateConfigChecked config ls
  | _ => .error (.invalidConfig "The given layers to check the config against is invalid")

/-- Is the outcome the script's own `InvalidConfigException`? -/
def isInvalidConfigErr : Except PyErr Unit → Bool
  | .error (.invalidConfig _) => true
  | _ => false

/-! ## The builder with descriptions (`get_map_rotation_and_descriptions`)

The repository's test suite exercises `get_map_rotation_and_descriptions`,
which returns the rotation together with a parallel list of per-slot
descriptions; that function is absent from the provided source file (only
`get_map_rotation` is present), so its description side is modelled from
the specification. -/

/-- Modelled from the spec: the human-readable rendering of one accepted
value in a filter description. The spec fixes the strings only for values
that are already strings; the rendering of other scalars is not pinned down
and is irrelevant to the properties proved here. -/
def describeValue : Value → String
  | .vStr s => s
  | .vBool b => if b then "True" else "False"
  | .vInt n => toString n
  | .vNull => "None"
  | .vList _ => "list"
  | .vDict _ => "dict"

/-- Modelled from the spec: the description of one filter specification
(spec section 4.1) — `['any']` for the sentinel, and otherwise every
literal accepted value across all clauses, in configuration order. -/
def describeFilter : Value → List String
  | .vStr _ => ["any"]
  | .vDict d => d.flatMap (fun kv => (upgrade_to_list kv.2).map describeValue)
  | _ => []

/-- The builder state of the description-carrying builder: `BState` plus the
parallel list of per-slot descriptions. -/
structure DState where
  chosen : List Value
  descs : List (List String)
  remaining : List Value
  ctr : Nat
  logs : List String
deriving DecidableEq

/-- Modelled from the spec: one slot of the description-carrying builder —
identical to `populateStep` except that the slot's description is appended
exactly when the chosen layer is appended (spec section 4.3, step 2). -/
def populateStepD (o : Nat → Nat) (minDist : Int) (st : DState) (fc : Value) :
    Except PyErr DState :=
  let filtered := apply_filter_config st.remaining fc
  if filtered.isEmpty then
    .ok { st with logs := st.logs ++ [noMapsMsg] }
  else
    match get_nonduplicate_map o st.ctr filtered st.chosen minDist with
    | .error e => .error e
    | .ok (cand, c, flag) =>
      .ok { chosen := st.chosen ++ [cand]
            descs := st.descs ++ [describeFilter fc]
            remaining := pyRemoveFirst st.remaining cand
            ctr := c
            logs := st.logs ++ (if flag then [dupMsg] else []) }

/-- The description-carrying `populate_chosen_rotation`. -/
def populateD (o : Nat → Nat) (minDist : Int) (st : DState) :
    List Value → Except PyErr DState
  | [] => .ok st
  | fc :: rest =>
    match populateStepD o minDist st fc with
    | .error e => .error e
    | .ok st1 => populateD o minDist st1 rest

/-- The repeat loop of the description-carrying builder. -/
def repeatPopulateD (o : Nat → Nat) (minDist : Int) (specs : List Value) :
    Nat → DState → Except PyErr DState
  | 0, st => .ok st
  | n + 1, st =>
    match populateD o minDist st specs with
    | .error e => .error e
    | .ok st1 => repeatPopulateD o minDist specs n st1

/-- Modelled from the spec: `get_map_rotation_and_descriptions`, the builder
exercised by the repository's tests but absent from the provided source —
the same orchestration as `get_map_rotation`, additionally returning the
parallel list of per-slot descriptions (spec sections 4.3 and 8). -/
def get_map_rotation_and_descriptions (o : Nat → Nat) (rotation_config : Value)
    (all_layers : List Value) (minDist : Int) :
    Except PyErr (List Value × List (List String)) :=
  let st0 : DState := ⟨[], [], all_layers, 0, []⟩
  match pyIterList (pyGetD rotation_config "starting_maps" (.vList [])) with
  | .error e => .error e
  | .ok startSpecs =>
    match populateD o minDist st0 startSpecs with
    | .error e => .error e
    | .ok st1 =>
      match pyRangeCount (pyGetD rotation_config "number_of_repeats" (.vInt 1)) with
      | .error e => .error e
      | .ok n =>
        match pyIterList (pyGet rotation_config "regular_maps") with
        | .error e => .error e
        | .ok regSpecs =>
          match repeatPopulateD o minDist regSpecs n st1 with
          | .error e => .error e
          | .ok st2 => .ok (st2.chosen, st2.descs)

/-! ## Derived views of a configuration, and concrete example values -/

/-- The repeat count the builder runs with: `number_of_repeats` defaulted to
1, read the way `range` reads it (Python bools being ints). -/
def repeatsOf (config : Value) : Nat :=
  match pyGetD config "number_of_repeats" (.vInt 1) with
  | .vInt n => n.toNat
  | .vBool b => if b then 1 else 0
  | _ => 0

/-- The list of filter specifications of the `regular_maps` section (empty
when the section is not a list). -/
def regularSpecs (config : Value) : List Value :=
  match pyGet config "regular_maps" with
  | .vList l => l
  | _ => []

/-- The iteration list of a config section, with crashing values read as
empty (used only to state which filter specs a configuration references). -/
def iterOf (v : Value) : List Value :=
  match pyIterList v with
  | .ok l => l
  | .error _ => []

/-- All filter specifications referenced by a configuration: the
`starting_maps` section as the validator reads it (defaulting to `['any']`)
followed by the `regular_maps` section. -/
def sectionSpecs (c : List (String × Value)) : List Value :=
  iterOf (pyGetD (.vDict c) "starting_maps" (.vList [.vStr "any"])) ++
    iterOf (pyGet (.vDict c) "regular_maps")

/-- The configuration references a filter key (not covered by the team
alias) that is absent or null on at least one catalog layer. -/
def BadKeyRef (c : List (String × Value)) (ls : List Value) : Prop :=
  ∃ fc ∈ sectionSpecs c, ∃ d, fc = Value.vDict d ∧ ∃ kv ∈ d,
    key_is_team ls kv.1 = false ∧
      ¬ls.all (fun l => decide (pyGet l kv.1 ≠ Value.vNull)) = true

/-- An example non-defective layer. -/
def exLayerA : Value :=
  .vDict [("layer", .vStr "LayerA"), ("map", .vStr "MapA"), ("gamemode", .vStr "AAS"),
    ("team1", .vStr "US"), ("team2", .vStr "RU"), ("bugged", .vBool false)]

/-- A second example non-defective layer on a different map. -/
def exLayerB : Value :=
  .vDict [("layer", .vStr "LayerB"), ("map", .vStr "MapB"), ("gamemode", .vStr "RAAS"),
    ("team1", .vStr "GB"), ("team2", .vStr "INS"), ("bugged", .vBool false)]

/-- An example defective (bugged) layer. -/
def exLayerBugged : Value :=
  .vDict [("layer", .vStr "LayerC"), ("map", .vStr "MapC"), ("gamemode", .vStr "AAS"),
    ("team1", .vStr "US"), ("team2", .vStr "RU"), ("bugged", .vBool true)]

/-- The minimal configuration: just a one-slot unfiltered pattern. -/
def cfgMinimal : Value := .vDict [("regular_maps", .vList [.vStr "any"])]

/-- A configuration with a two-slot unfiltered pattern. -/
def cfgAnyTwo : Value := .vDict [("regular_maps", .vList [.vStr "any", .vStr "any"])]

/-! ## Lemmas about the filter evaluator -/

/-- A layer satisfies one attribute-name clause of a filter dict: under at
least one of the (possibly team-alias-expanded) keys, its value is contained
in the (possibly singleton-upgraded) accepted-values list. -/
def clauseSat (layer : Value) (k : String) (v : Value) : Prop :=
  ∃ kk ∈ expandKey k, pyGet layer kk ∈ upgrade_to_list v

theorem mem_filterClause {x : Value} {L : List Value} {k : String} {v : Value} :
    x ∈ filterClause L k v ↔ x ∈ L ∧ clauseSat x k v := by
  simp only [filterClause, List.mem_flatMap, List.mem_filterMap, clauseSat]
  constructor
  · rintro ⟨layer, hmem, kk, hkk, hif⟩
    by_cases hc : pyGet layer kk ∈ upgrade_to_list v
    · rw [if_pos hc] at hif
      cases hif
      exact ⟨hmem, kk, hkk, hc⟩
    · rw [if_neg hc] at hif
      cases hif
  · rintro ⟨hmem, kk, hkk, hc⟩
    exact ⟨x, hmem, kk, hkk, by rw [if_pos hc]⟩

theorem mem_foldClauses_subset {x : Value} :
    ∀ (d : List (String × Value)) (L : List Value),
      x ∈ d.foldl (fun acc kv => filterClause acc kv.1 kv.2) L → x ∈ L := by
  intro d
  induction d with
  | nil => intro L h; exact h
  | cons kv rest ih =>
    intro L h
    exact (mem_filterClause.mp (ih (filterClause L kv.1 kv.2) h)).1

theorem mem_foldClauses_sat {x : Value} :
    ∀ (d : List (String × Value)) (L : List Value),
      x ∈ d.foldl (fun acc kv => filterClause acc kv.1 kv.2) L →
      ∀ kv ∈ d, clauseSat x kv.1 kv.2 := by
  intro d
  induction d with
  | nil => intro L _ kv hkv; cases hkv
  | cons kv0 rest ih =>
    intro L h kv hkv
    rcases List.mem_cons.mp hkv with h1 | h2
    · subst h1
      exact (mem_filterClause.mp (mem_foldClauses_subset rest _ h)).2
    · exact ih (filterClause L kv0.1 kv0.2) h kv h2

theorem apply_filter_config_subset {x : Value} {L : List Value} {fc : Value} :
    x ∈ apply_filter_config L fc → x ∈ L := by
  intro h
  cases fc with
  | vStr s =>
    simp only [apply_filter_config] at h
    by_cases hc : pyCasefold s = "any"
    · rwa [if_pos hc] at h
    · rw [if_neg hc] at h; cases h
  | vDict d => exact mem_foldClauses_subset d L h
  | vNull => cases h
  | vBool _ => cases h
  | vInt _ => cases h
  | vList _ => cases h

/-- For a clause whose key is not the team alias, the clause keeps exactly
the layers whose value under that key is accepted (each exactly once). -/
theorem filterClause_eq_filter {L : List Value} {k : String} {v : Value}
    (hk : k ≠ "team") :
    filterClause L k v = L.filter (fun l => decide (pyGet l k ∈ upgrade_to_list v)) := by
  induction L with
  | nil => rfl
  | cons a rest ih =>
    simp only [filterClause, expandKey, if_neg hk] at *
    by_cases hc : pyGet a k ∈ upgrade_to_list v
    · simp [hc, ih]
    · simp [hc, ih]

/-- For a filter dict with no team clause, applying the filter is exactly
`List.filter` by the conjunction of all clauses. -/
theorem apply_filter_config_noTeam :
    ∀ (d : List (String × Value)) (L : List Value),
      (∀ kv ∈ d, kv.1 ≠ "team") →
      apply_filter_config L (.vDict d) =
        L.filter (fun l => d.all (fun kv => decide (pyGet l kv.1 ∈ upgrade_to_list kv.2))) := by
  intro d
  induction d with
  | nil => intro L _; simp [apply_filter_config]
  | cons kv rest ih =>
    intro L hnt
    have h0 : apply_filter_config L (.vDict (kv :: rest)) =
        apply_filter_config (filterClause L kv.1 kv.2) (.vDict rest) := rfl
    rw [h0, ih (filterClause L kv.1 kv.2) (fun x hx => hnt x (List.mem_cons_of_mem kv hx)),
      filterClause_eq_filter (hnt kv (List.mem_cons_self kv rest)), List.filter_filter]
    congr 1
    funext l
    simp [List.all_cons, Bool.and_comm]

/-! ## Lemmas about the duplicate-avoidance selector -/

theorem pyChoice_mem {o : Nat → Nat} {c : Nat} {pool : List Value}
    (h : pool ≠ []) : pyChoice o c pool ∈ pool := by
  have hl : 0 < pool.length := List.length_pos.mpr h
  have hlt : o c % pool.length < pool.length := Nat.mod_lt _ hl
  rw [pyChoice, List.getD_eq_getElem _ _ hlt]
  exact List.getElem_mem hlt

theorem pyGetItem_ok_pyGet {l : Value} {k : String} {v : Value}
    (h : pyGetItem l k = .ok v) : pyGet l k = v := by
  cases l with
  | vDict d =>
    rw [pyGetItem] at h
    split at h
    next kv hf =>
      cases h
      simp only [pyGet]
      rw [hf]
    next hf => cases h
  | vNull => cases h
  | vBool _ => cases h
  | vInt _ => cases h
  | vStr _ => cases h
  | vList _ => cases h

theorem pyGetItem_of_hasKey {l : Value} {k : String} (h : hasKey l k = true) :
    pyGetItem l k = .ok (pyGet l k) := by
  cases l with
  | vDict d =>
    rw [hasKey] at h
    rcases hf : d.find? (fun kv => kv.1 == k) with _ | kv
    · rw [hf] at h; cases h
    · simp only [pyGetItem, pyGet]
      rw [hf]
  | vNull => cases h
  | vBool _ => cases h
  | vInt _ => cases h
  | vStr _ => cases h
  | vList _ => cases h

theorem mapGetItem_ok_map {k : String} :
    ∀ {ls vs : List Value}, mapGetItem k ls = .ok vs →
      vs = ls.map (fun l => pyGet l k) := by
  intro ls
  induction ls with
  | nil => intro vs h; cases h; rfl
  | cons l rest ih =>
    intro vs h
    rw [mapGetItem] at h
    split at h
    · cases h
    next v hv =>
      split at h
      · cases h
      next vs2 hvs =>
        cases h
        rw [List.map_cons, pyGetItem_ok_pyGet hv, ih hvs]

theorem mapGetItem_of_hasKey {k : String} :
    ∀ {ls : List Value}, (∀ l ∈ ls, hasKey l k = true) →
      mapGetItem k ls = .ok (ls.map (fun l => pyGet l k)) := by
  intro ls
  induction ls with
  | nil => intro _; rfl
  | cons l rest ih =>
    intro hk
    rw [mapGetItem, pyGetItem_of_hasKey (hk l (by simp)),
      ih (fun x hx => hk x (by simp [hx]))]
    rfl

/-- The retry loop with positive fuel, written without the intermediate
`let` so that the case structure is visible to rewriting. -/
theorem nondupLoop_succ_eq (o : Nat → Nat) (pool window : List Value)
    (fuel c : Nat) :
    nondupLoop o pool window (fuel + 1) c =
      if pool.isEmpty then .error (.indexError "random.choice on an empty list")
      else
        match pyGetItem (pyChoice o c pool) "map" with
        | .error e => .error e
        | .ok candMap =>
          match mapGetItem "map" window with
          | .error e => .error e
          | .ok windowMaps =>
            if candMap ∈ windowMaps then
              match mapGetItem "layer" window with
              | .error e => .error e
              | .ok windowLayers =>
                if windowLayers.all isStr then
                  match pyGetItem (pyChoice o c pool) "layer" with
                  | .error e => .error e
                  | .ok _ =>
                    match fuel with
                    | 0 => .ok (pyChoice o c pool, c + 1, true)
                    | _ + 1 => nondupLoop o pool window fuel (c + 1)
                else .error (.typeError "sequence item: expected str instance")
            else .ok (pyChoice o c pool, c + 1, false) := rfl

/-- Under the well-formedness the catalog format guarantees — every pool
layer carries `map` and `layer`, every window entry carries `map` and a
string-valued `layer` — the retry loop always returns a pool member. -/
theorem nondupLoop_ok {o : Nat → Nat} {pool window : List Value}
    (hpool : pool ≠ [])
    (hpm : ∀ l ∈ pool, hasKey l "map" = true)
    (hpl : ∀ l ∈ pool, hasKey l "layer" = true)
    (hwm : ∀ l ∈ window, hasKey l "map" = true)
    (hwl : ∀ l ∈ window, hasKey l "layer" = true)
    (hws : ∀ l ∈ window, isStr (pyGet l "layer") = true) :
    ∀ (fuel c : Nat), 0 < fuel →
      ∃ cand c2 flag, nondupLoop o pool window fuel c = .ok (cand, c2, flag) ∧
        cand ∈ pool := by
  have hstr : (window.map (fun l => pyGet l "layer")).all isStr = true := by
    rw [List.all_map, List.all_eq_true]
    exact fun l hl => hws l hl
  have hpe : pool.isEmpty = false := by simpa using hpool
  intro fuel
  induction fuel with
  | zero => intro c h; cases h
  | succ fuel ih =>
    intro c _
    have hm := pyGetItem_of_hasKey (hpm _ (@pyChoice_mem o c pool hpool))
    have hl2 := pyGetItem_of_hasKey (hpl _ (@pyChoice_mem o c pool hpool))
    rw [nondupLoop_succ_eq]
    simp only [hpe, Bool.false_eq_true, if_false, hm, mapGetItem_of_hasKey hwm,
      mapGetItem_of_hasKey hwl, hl2, hstr, if_true]
    by_cases hc : pyGet (pyChoice o c pool) "map" ∈
        window.map (fun l => pyGet l "map")
    · rw [if_pos hc]
      cases fuel with
      | zero =>
        exact ⟨pyChoice o c pool, c + 1, true, rfl, @pyChoice_mem o c pool hpool⟩
      | succ fuel2 => exact ih (c + 1) (Nat.succ_pos fuel2)
    · rw [if_neg hc]
      exact ⟨pyChoice o c pool, c + 1, false, rfl, @pyChoice_mem o c pool hpool⟩

theorem nondupLoop_mem {o : Nat → Nat} {pool window : List Value} :
    ∀ {fuel c : Nat} {cand : Value} {c2 : Nat} {flag : Bool},
      nondupLoop o pool window fuel c = .ok (cand, c2, flag) → cand ∈ pool := by
  intro fuel
  induction fuel with
  | zero => intro c cand c2 flag h; cases h
  | succ fuel ih =>
    intro c cand c2 flag h
    rw [nondupLoop_succ_eq] at h
    split at h
    · cases h
    next hp =>
      have hpool : pool ≠ [] := by simpa using hp
      split at h
      · cases h
      next candMap hcm =>
        split at h
        · cases h
        next windowMaps hwm =>
          split at h
          next hin =>
            split at h
            · cases h
            next windowLayers hwl =>
              split at h
              next hstr =>
                split at h
                · cases h
                next hcl =>
                  cases fuel with
                  | zero => cases h; exact pyChoice_mem hpool
                  | succ fuel2 => exact ih h
              · cases h
          next hin =>
            cases h
            exact pyChoice_mem hpool

/-- When the accepted-immediately branch returns (flag `false`), the
returned candidate's `map` field avoids the window's `map` fields. -/
theorem nondupLoop_flag_false {o : Nat → Nat} {pool window : List Value} :
    ∀ {fuel c : Nat} {cand : Value} {c2 : Nat},
      nondupLoop o pool window fuel c = .ok (cand, c2, false) →
      pyGet cand "map" ∉ window.map (fun l => pyGet l "map") := by
  intro fuel
  induction fuel with
  | zero => intro c cand c2 h; cases h
  | succ fuel ih =>
    intro c cand c2 h
    rw [nondupLoop_succ_eq] at h
    split at h
    · cases h
    next hp =>
      split at h
      · cases h
      next candMap hcm =>
        split at h
        · cases h
        next windowMaps hwm =>
          split at h
          next hin =>
            split at h
            · cases h
            next windowLayers hwl =>
              split at h
              next hstr =>
                split at h
                · cases h
                next hcl =>
                  cases fuel with
                  | zero => cases h
                  | succ fuel2 => exact ih h
              · cases h
          next hin =>
            cases h
            rw [← pyGetItem_ok_pyGet hcm, mapGetItem_ok_map hwm] at hin
            exact hin

/-- When the loop exhausts its fuel (flag `true`), every single draw
collided with the window's `map` fields, the draw counter advanced by
exactly the fuel, and what is returned is the last drawn candidate. -/
theorem nondupLoop_flag_true {o : Nat → Nat} {pool window : List Value} :
    ∀ {fuel c : Nat} {cand : Value} {c2 : Nat},
      nondupLoop o pool window fuel c = .ok (cand, c2, true) →
      c2 = c + fuel ∧ cand = pyChoice o (c + fuel - 1) pool ∧
        ∀ i < fuel, pyGet (pyChoice o (c + i) pool) "map" ∈
          window.map (fun l => pyGet l "map") := by
  intro fuel
  induction fuel with
  | zero => intro c cand c2 h; cases h
  | succ fuel ih =>
    intro c cand c2 h
    rw [nondupLoop_succ_eq] at h
    split at h
    · cases h
    next hp =>
      split at h
      · cases h
      next candMap hcm =>
        split at h
        · cases h
        next windowMaps hwm =>
          split at h
          next hin =>
            split at h
            · cases h
            next windowLayers hwl =>
              split at h
              next hstr =>
                split at h
                · cases h
                next hcl =>
                  have hin2 : pyGet (pyChoice o c pool) "map" ∈
                      window.map (fun l => pyGet l "map") := by
                    rw [← pyGetItem_ok_pyGet hcm, mapGetItem_ok_map hwm] at hin
                    exact hin
                  cases fuel with
                  | zero =>
                    cases h
                    refine ⟨rfl, by simp, ?_⟩
                    intro i hi
                    interval_cases i
                    simpa using hin2
                  | succ fuel2 =>
                    obtain ⟨h1, h2, h3⟩ := ih h
                    refine ⟨by omega, by rw [h2]; congr 1; omega, ?_⟩
                    intro i hi
                    cases i with
                    | zero => simpa using hin2
                    | succ j =>
                      have := h3 j (by omega)
                      rw [show c + (j + 1) = c + 1 + j by omega]
                      exact this
              · cases h
          next hin => cases h

/-! ## Lemmas about the rotation builder -/

theorem pyRemoveFirst_perm {x : Value} :
    ∀ {l : List Value}, x ∈ l → l.Perm (x :: pyRemoveFirst l x) := by
  intro l
  induction l with
  | nil => intro h; cases h
  | cons a rest ih =>
    intro h
    by_cases hax : a = x
    · subst hax
      rw [pyRemoveFirst, if_pos rfl]
    · rw [pyRemoveFirst, if_neg hax]
      have hx : x ∈ rest := by
        rcases List.mem_cons.mp h with h1 | h2
        · exact absurd h1.symm hax
        · exact h2
      exact (List.Perm.cons a (ih hx)).trans (List.Perm.swap x a _)

/-- Case analysis on one builder slot: either the filtered subset is empty
and only the log changes, or a candidate from the filtered subset is
appended and removed from the pool. -/
theorem populateStep_cases {o : Nat → Nat} {m : Int} {st : BState} {fc : Value}
    {st2 : BState} (h : populateStep o m st fc = .ok st2) :
    (apply_filter_config st.remaining fc = [] ∧
      st2 = { st with logs := st.logs ++ [noMapsMsg] }) ∨
    (∃ cand c flag, apply_filter_config st.remaining fc ≠ [] ∧
      get_nonduplicate_map o st.ctr (apply_filter_config st.remaining fc) st.chosen m =
        .ok (cand, c, flag) ∧
      cand ∈ apply_filter_config st.remaining fc ∧
      st2 = ⟨st.chosen ++ [cand], pyRemoveFirst st.remaining cand, c,
        st.logs ++ (if flag then [dupMsg] else []),
        st.calls ++ [apply_filter_config st.remaining fc]⟩) := by
  rw [populateStep] at h
  by_cases hemp : (apply_filter_config st.remaining fc).isEmpty
  · rw [if_pos hemp] at h
    cases h
    exact Or.inl ⟨List.isEmpty_iff.mp hemp, rfl⟩
  · rw [if_neg hemp] at h
    have hne : apply_filter_config st.remaining fc ≠ [] := by simpa using hemp
    rcases hsel : get_nonduplicate_map o st.ctr (apply_filter_config st.remaining fc)
        st.chosen m with e | ⟨cand, c, flag⟩
    · rw [hsel] at h; cases h
    · rw [hsel] at h
      cases h
      exact Or.inr ⟨cand, c, flag, hne, rfl, nondupLoop_mem hsel, rfl⟩

theorem populateStep_perm {o : Nat → Nat} {m : Int} {st : BState} {fc : Value}
    {st2 : BState} (h : populateStep o m st fc = .ok st2) :
    (st2.chosen ++ st2.remaining).Perm (st.chosen ++ st.remaining) := by
  rcases populateStep_cases h with ⟨_, h2⟩ | ⟨cand, c, flag, _, _, hmem, h2⟩
  · subst h2; rfl
  · subst h2
    have hrem : cand ∈ st.remaining := apply_filter_config_subset hmem
    have hassoc : (st.chosen ++ [cand]) ++ pyRemoveFirst st.remaining cand
        = st.chosen ++ (cand :: pyRemoveFirst st.remaining cand) := by
      rw [List.append_assoc]; rfl
    show ((st.chosen ++ [cand]) ++ pyRemoveFirst st.remaining cand).Perm
      (st.chosen ++ st.remaining)
    rw [hassoc]
    exact List.Perm.append_left st.chosen (pyRemoveFirst_perm hrem).symm

theorem populateStep_len {o : Nat → Nat} {m : Int} {st : BState} {fc : Value}
    {st2 : BState} (h : populateStep o m st fc = .ok st2) :
    st2.chosen.length ≤ st.chosen.length + 1 := by
  rcases populateStep_cases h with ⟨_, h2⟩ | ⟨cand, c, flag, _, _, _, h2⟩ <;>
    subst h2 <;> simp

theorem populateStep_callsNE {o : Nat → Nat} {m : Int} {st : BState} {fc : Value}
    {st2 : BState} (h : populateStep o m st fc = .ok st2)
    (hc : ∀ p ∈ st.calls, p ≠ []) : ∀ p ∈ st2.calls, p ≠ [] := by
  rcases populateStep_cases h with ⟨_, h2⟩ | ⟨cand, c, flag, hne, _, _, h2⟩
  · subst h2; exact hc
  · subst h2
    intro p hp
    rcases List.mem_append.mp hp with h1 | h2
    · exact hc p h1
    · rw [List.mem_singleton.mp h2]
      exact hne

theorem populate_perm {o : Nat → Nat} {m : Int} :
    ∀ {specs : List Value} {st st2 : BState},
      populate_chosen_rotation o m st specs = .ok st2 →
      (st2.chosen ++ st2.remaining).Perm (st.chosen ++ st.remaining) := by
  intro specs
  induction specs with
  | nil => intro st st2 h; cases h; rfl
  | cons fc rest ih =>
    intro st st2 h
    rw [populate_chosen_rotation] at h
    rcases hstep : populateStep o m st fc with e | st1
    · rw [hstep] at h; cases h
    · rw [hstep] at h
      exact (ih h).trans (populateStep_perm hstep)

theorem populate_len {o : Nat → Nat} {m : Int} :
    ∀ {specs : List Value} {st st2 : BState},
      populate_chosen_rotation o m st specs = .ok st2 →
      st2.chosen.length ≤ st.chosen.length + specs.length := by
  intro specs
  induction specs with
  | nil => intro st st2 h; cases h; simp
  | cons fc rest ih =>
    intro st st2 h
    rw [populate_chosen_rotation] at h
    rcases hstep : populateStep o m st fc with e | st1
    · rw [hstep] at h; cases h
    · rw [hstep] at h
      have h1 := populateStep_len hstep
      have h2 := ih h
      simp only [List.length_cons]
      omega

theorem populate_callsNE {o : Nat → Nat} {m : Int} :
    ∀ {specs : List Value} {st st2 : BState},
      populate_chosen_rotation o m st specs = .ok st2 →
      (∀ p ∈ st.calls, p ≠ []) → ∀ p ∈ st2.calls, p ≠ [] := by
  intro specs
  induction specs with
  | nil => intro st st2 h hc; cases h; exact hc
  | cons fc rest ih =>
    intro st st2 h hc
    rw [populate_chosen_rotation] at h
    rcases hstep : populateStep o m st fc with e | st1
    · rw [hstep] at h; cases h
    · rw [hstep] at h
      exact ih h (populateStep_callsNE hstep hc)

theorem repeatPopulate_perm {o : Nat → Nat} {m : Int} {specs : List Value} :
    ∀ {n : Nat} {st st2 : BState},
      repeatPopulate o m specs n st = .ok st2 →
      (st2.chosen ++ st2.remaining).Perm (st.chosen ++ st.remaining) := by
  intro n
  induction n with
  | zero => intro st st2 h; cases h; rfl
  | succ n ih =>
    intro st st2 h
    rw [repeatPopulate] at h
    rcases hpop : populate_chosen_rotation o m st specs with e | st1
    · rw [hpop] at h; cases h
    · rw [hpop] at h
      exact (ih h).trans (populate_perm hpop)

theorem repeatPopulate_len {o : Nat → Nat} {m : Int} {specs : List Value} :
    ∀ {n : Nat} {st st2 : BState},
      repeatPopulate o m specs n st = .ok st2 →
      st2.chosen.length ≤ st.chosen.length + n * specs.length := by
  intro n
  induction n with
  | zero => intro st st2 h; cases h; simp
  | succ n ih =>
    intro st st2 h
    rw [repeatPopulate] at h
    rcases hpop : populate_chosen_rotation o m st specs with e | st1
    · rw [hpop] at h; cases h
    · rw [hpop] at h
      have h1 := populate_len hpop
      have h2 := ih h
      have : (n + 1) * specs.length = n * specs.length + specs.length := by ring
      omega

theorem repeatPopulate_callsNE {o : Nat → Nat} {m : Int} {specs : List Value} :
    ∀ {n : Nat} {st st2 : BState},
      repeatPopulate o m specs n st = .ok st2 →
      (∀ p ∈ st.calls, p ≠ []) → ∀ p ∈ st2.calls, p ≠ [] := by
  intro n
  induction n with
  | zero => intro st st2 h hc; cases h; exact hc
  | succ n ih =>
    intro st st2 h hc
    rw [repeatPopulate] at h
    rcases hpop : populate_chosen_rotation o m st specs with e | st1
    · rw [hpop] at h; cases h
    · rw [hpop] at h
      exact ih h (populate_callsNE hpop hc)

/-- Decomposition of a successful builder run into its four stages. -/
theorem buildState_stages {o : Nat → Nat} {cfg : Value} {layers : List Value}
    {m : Int} {st : BState} (h : buildState o cfg layers m = .ok st) :
    ∃ startSpecs st1 n regSpecs,
      pyIterList (pyGetD cfg "starting_maps" (.vList [])) = .ok startSpecs ∧
      populate_chosen_rotation o m ⟨[], layers, 0, [], []⟩ startSpecs = .ok st1 ∧
      pyRangeCount (pyGetD cfg "number_of_repeats" (.vInt 1)) = .ok n ∧
      pyIterList (pyGet cfg "regular_maps") = .ok regSpecs ∧
      repeatPopulate o m regSpecs n st1 = .ok st := by
  rw [buildState] at h
  split at h
  · cases h
  next startSpecs h1 =>
    split at h
    · cases h
    next st1 h2 =>
      split at h
      · cases h
      next n h3 =>
        split at h
        · cases h
        next regSpecs h4 =>
          exact ⟨startSpecs, st1, n, regSpecs, h1, h2, h3, h4, h⟩

/-- The global without-replacement invariant of the whole builder run: the
chosen rotation and the remaining pool together are a permutation of the
input catalog. -/
theorem buildState_perm {o : Nat → Nat} {cfg : Value} {layers : List Value}
    {m : Int} {st : BState} (h : buildState o cfg layers m = .ok st) :
    (st.chosen ++ st.remaining).Perm layers := by
  obtain ⟨startSpecs, st1, n, regSpecs, h1, h2, h3, h4, h5⟩ := buildState_stages h
  exact (repeatPopulate_perm h5).trans (populate_perm h2)

theorem buildState_callsNE {o : Nat → Nat} {cfg : Value} {layers : List Value}
    {m : Int} {st : BState} (h : buildState o cfg layers m = .ok st) :
    ∀ p ∈ st.calls, p ≠ [] := by
  obtain ⟨startSpecs, st1, n, regSpecs, h1, h2, h3, h4, h5⟩ := buildState_stages h
  exact repeatPopulate_callsNE h5 (populate_callsNE h2 (by intro p hp; cases hp))

theorem get_map_rotation_ok {o : Nat → Nat} {cfg : Value} {layers : List Value}
    {m : Int} {r : List Value} (h : get_map_rotation o cfg layers m = .ok r) :
    ∃ st, buildState o cfg layers m = .ok st ∧ r = st.chosen := by
  rw [get_map_rotation] at h
  split at h
  · cases h
  next st h1 =>
    cases h
    exact ⟨st, h1, rfl⟩

/-! ## Lemmas about the validator -/

theorem checkFilterKeys_err {ls : List Value} :
    ∀ {ks : List String} {e : PyErr}, checkFilterKeys ls ks = .error e →
      ∃ msg, e = .invalidConfig msg := by
  intro ks
  induction ks with
  | nil => intro e h; cases h
  | cons k rest ih =>
    intro e h
    rw [checkFilterKeys] at h
    split at h
    · cases h
      exact ⟨_, rfl⟩
    · exact ih h

theorem checkFilterConfig_err {ls : List Value} {fc : Value} {e : PyErr}
    (h : checkFilterConfig ls fc = .error e) : ∃ msg, e = .invalidConfig msg := by
  cases fc with
  | vStr s =>
    rw [checkFilterConfig] at h
    split at h
    · cases h
    · cases h
      exact ⟨_, rfl⟩
  | vDict d => exact checkFilterKeys_err h
  | vNull => cases h; exact ⟨_, rfl⟩
  | vBool _ => cases h; exact ⟨_, rfl⟩
  | vInt _ => cases h; exact ⟨_, rfl⟩
  | vList _ => cases h; exact ⟨_, rfl⟩

theorem validateHelperList_err {ls : List Value} :
    ∀ {items : List Value} {e : PyErr}, validateHelperList ls items = .error e →
      ∃ msg, e = .invalidConfig msg := by
  intro items
  induction items with
  | nil => intro e h; cases h
  | cons fc rest ih =>
    intro e h
    rw [validateHelperList] at h
    split at h
    next e2 hfc =>
      cases h
      exact checkFilterConfig_err hfc
    · exact ih h

theorem validateHelperList_ok {ls : List Value} :
    ∀ {items : List Value}, validateHelperList ls items = .ok () →
      ∀ fc ∈ items, checkFilterConfig ls fc = .ok () := by
  intro items
  induction items with
  | nil => intro _ fc hfc; cases hfc
  | cons fc0 rest ih =>
    intro h fc hfc
    rw [validateHelperList] at h
    split at h
    · cases h
    next u hfc0 =>
      rcases List.mem_cons.mp hfc with h1 | h2
      · subst h1
        cases u
        exact hfc0
      · exact ih h fc h2

theorem checkFilterKeys_ok {ls : List Value} :
    ∀ {ks : List String}, checkFilterKeys ls ks = .ok () →
      ∀ k ∈ ks, key_is_team ls k = true ∨
        ls.all (fun l => decide (pyGet l k ≠ Value.vNull)) = true := by
  intro ks
  induction ks with
  | nil => intro _ k hk; cases hk
  | cons k0 rest ih =>
    intro h k hk
    rw [checkFilterKeys] at h
    split at h
    · cases h
    next hcond =>
      rcases List.mem_cons.mp hk with h1 | h2
      · subst h1
        by_cases ht : key_is_team ls k = true
        · exact Or.inl ht
        · right
          by_cases ha : ls.all (fun l => decide (pyGet l k ≠ Value.vNull)) = true
          · exact ha
          · exact absurd (by simp [Bool.not_eq_true] at ht ha; simp [ht, ha]) hcond
      · exact ih h k h2

theorem pyGetD_of_find {c : List (String × Value)} {k : String} {kv0 : String × Value}
    {d : Value} (h : c.find? (fun kv => kv.1 == k) = some kv0) :
    pyGetD (.vDict c) k d = kv0.2 := by
  simp [pyGetD, h]

theorem pyGetD_of_find_none {c : List (String × Value)} {k : String} {d : Value}
    (h : c.find? (fun kv => kv.1 == k) = none) :
    pyGetD (.vDict c) k d = d := by
  simp [pyGetD, h]

theorem isNonEmptyList_vList {v : Value} (h : isNonEmptyList v = true) :
    ∃ l, v = .vList l ∧ l ≠ [] := by
  cases v with
  | vList l => exact ⟨l, rfl, by simpa [isNonEmptyList] using h⟩
  | vNull => cases h
  | vBool _ => cases h
  | vInt _ => cases h
  | vStr _ => cases h
  | vDict _ => cases h

theorem validate_helper_vList {l ls : List Value} :
    validate_helper (.vList l) ls = validateHelperList ls l := rfl

theorem validateConfigChecked_ok {config : Value} {ls : List Value}
    (h : validateConfigChecked config ls = .ok ()) :
    isNonEmptyList (pyGet config "regular_maps") = true ∧
    repeatsValid (pyGetD config "number_of_repeats" (.vInt 1)) = true := by
  simp only [validateConfigChecked] at h
  split at h
  · cases h
  next hg =>
    split at h
    · cases h
    next h1 =>
      split at h
      · cases h
      next h2 =>
        split at h
        · cases h
        next h3 =>
          exact ⟨by simpa using h1, by simpa using h3⟩

theorem validate_config_ok_vList {config : Value} {ls : List Value}
    (h : validate_config config (.vList ls) = .ok ()) :
    validateConfigChecked config ls = .ok () := by
  simp only [validate_config] at h
  split at h
  · cases h
  · exact h

theorem pyRangeCount_repeatsOf {config : Value}
    (h : repeatsValid (pyGetD config "number_of_repeats" (.vInt 1)) = true) :
    pyRangeCount (pyGetD config "number_of_repeats" (.vInt 1)) =
      .ok (repeatsOf config) := by
  rcases hv : pyGetD config "number_of_repeats" (.vInt 1) with _ | b | n | s | l | d
  · rw [hv] at h; cases h
  · rw [repeatsOf, hv, pyRangeCount]
  · rw [repeatsOf, hv, pyRangeCount]
  · rw [hv] at h; cases h
  · rw [hv] at h; cases h
  · rw [hv] at h; cases h

theorem validate_invalid_regular {c : List (String × Value)} {lv : Value}
    (h : isNonEmptyList (pyGet (.vDict c) "regular_maps") = false) :
    isInvalidConfigErr (validate_config (.vDict c) lv) = true := by
  cases lv with
  | vList ls =>
    simp only [validate_config]
    split
    · rfl
    · simp only [validateConfigChecked]
      rw [if_neg (by simp [isDict]), if_pos (by simp [h])]
      rfl
  | vNull => rfl
  | vBool _ => rfl
  | vInt _ => rfl
  | vStr _ => rfl
  | vDict _ => rfl

theorem validate_invalid_repeats {c : List (String × Value)} {lv : Value}
    {kv0 : String × Value}
    (hfind : c.find? (fun kv => kv.1 == "number_of_repeats") = some kv0)
    (hrv : repeatsValid kv0.2 = false) :
    isInvalidConfigErr (validate_config (.vDict c) lv) = true := by
  cases lv with
  | vList ls =>
    simp only [validate_config]
    split
    · rfl
    · simp only [validateConfigChecked]
      rw [if_neg (by simp [isDict])]
      split
      · rfl
      · split
        · rfl
        · rw [if_pos (by rw [pyGetD_of_find hfind, hrv]; rfl)]
          rfl
  | vNull => rfl
  | vBool _ => rfl
  | vInt _ => rfl
  | vStr _ => rfl
  | vDict _ => rfl

/-- A non-mapping config (for example `None`, which `yaml.load` returns for
an empty file) makes `validate_config` raise `AttributeError` at the first
`config.get`, not the script's own `InvalidConfigException` — provided the
given layers pass their own check first. -/
theorem validate_config_nonmapping {config : Value} {ls : List Value}
    (hnd : isDict config = false) (hne : ls ≠ []) (hd : ls.all isDict = true) :
    validate_config config (.vList ls) = .error (.attributeError attrGetMsg) := by
  simp only [validate_config]
  rw [if_neg (by simp [List.isEmpty_iff, hne, hd])]
  simp only [validateConfigChecked]
  rw [if_pos (by simp [hnd])]

theorem checkFilterConfig_ok_no_badkey {ls : List Value} {fc : Value}
    {d : List (String × Value)} {kv : String × Value}
    (hok : checkFilterConfig ls fc = .ok ()) (hfc : fc = Value.vDict d)
    (hkv : kv ∈ d) (hteam : key_is_team ls kv.1 = false)
    (hall : ¬ls.all (fun l => decide (pyGet l kv.1 ≠ Value.vNull)) = true) :
    False := by
  subst hfc
  have hk := checkFilterKeys_ok hok kv.1
    (List.mem_map_of_mem (fun p => p.1) hkv)
  rcases hk with h | h
  · rw [hteam] at h; cases h
  · exact hall h

theorem validate_invalid_badkey {c : List (String × Value)} {ls : List Value}
    (hsm : vNotNull (pyGetD (.vDict c) "starting_maps" (.vList [.vStr "any"])) = true)
    (hbad : BadKeyRef c ls) :
    isInvalidConfigErr (validate_config (.vDict c) (.vList ls)) = true := by
  simp only [validate_config]
  split
  · rfl
  next hlayers =>
    simp only [validateConfigChecked]
    rw [if_neg (by simp [isDict])]
    split
    · rfl
    next h1 =>
      split
      · rfl
      next h2 =>
        split
        · rfl
        next h3 =>
          have hrm : isNonEmptyList (pyGet (.vDict c) "regular_maps") = true := by
            simpa using h1
          have hsmne : isNonEmptyList
              (pyGetD (.vDict c) "starting_maps" (.vList [.vStr "any"])) = true := by
            by_cases hq : isNonEmptyList
                (pyGetD (.vDict c) "starting_maps" (.vList [.vStr "any"])) = true
            · exact hq
            · exact absurd (by simp [Bool.not_eq_true] at hq; simp [hsm, hq]) h2
          obtain ⟨smL, hsmL, _⟩ := isNonEmptyList_vList hsmne
          obtain ⟨rmL, hrmL, _⟩ := isNonEmptyList_vList hrm
          rw [hsmL, hrmL, validate_helper_vList, validate_helper_vList]
          obtain ⟨fc, hfcmem, d, hfcd, kv, hkv, hteam, hall⟩ := hbad
          have hfcmem2 : fc ∈ smL ++ rmL := by
            have : sectionSpecs c = smL ++ rmL := by
              rw [sectionSpecs, hsmL, hrmL]
              rfl
            rwa [this] at hfcmem
          rcases hlist : validateHelperList ls smL with e | u
          · obtain ⟨msg, hmsg⟩ := validateHelperList_err hlist
            subst hmsg
            rfl
          · cases u
            rcases List.mem_append.mp hfcmem2 with hin | hin
            · exact (checkFilterConfig_ok_no_badkey
                (validateHelperList_ok hlist fc hin) hfcd hkv hteam hall).elim
            · rcases hlist2 : validateHelperList ls rmL with e2 | u2
              · obtain ⟨msg, hmsg⟩ := validateHelperList_err hlist2
                subst hmsg
                rfl
              · exact (checkFilterConfig_ok_no_badkey
                  (validateHelperList_ok hlist2 fc hin) hfcd hkv hteam hall).elim

/-- The sentinel section `['any']` passes `validate_helper` against any
catalog. -/
theorem validate_helper_any (ls : List Value) :
    validate_helper (.vList [.vStr "any"]) ls = .ok () := rfl

/-- The minimal configuration validates against any non-empty catalog of
mappings. -/
theorem validate_config_minimal (ls : List Value) (hne : ls ≠ [])
    (hd : ls.all isDict = true) :
    validate_config cfgMinimal (.vList ls) = .ok () := by
  simp only [validate_config]
  rw [if_neg (by simp [List.isEmpty_iff, hne, hd])]
  rfl

/-! ## Parity lemmas for the description-carrying builder -/

theorem populateStepD_parity {o : Nat → Nat} {m : Int} {st st2 : DState}
    {fc : Value} (h : populateStepD o m st fc = .ok st2)
    (hp : st.descs.length = st.chosen.length) :
    st2.descs.length = st2.chosen.length := by
  rw [populateStepD] at h
  split at h
  · cases h
    exact hp
  · split at h
    · cases h
    · cases h
      simp [hp]

theorem populateD_parity {o : Nat → Nat} {m : Int} :
    ∀ {specs : List Value} {st st2 : DState},
      populateD o m st specs = .ok st2 →
      st.descs.length = st.chosen.length →
      st2.descs.length = st2.chosen.length := by
  intro specs
  induction specs with
  | nil => intro st st2 h hp; cases h; exact hp
  | cons fc rest ih =>
    intro st st2 h hp
    rw [populateD] at h
    split at h
    · cases h
    next st1 hstep => exact ih h (populateStepD_parity hstep hp)

theorem repeatPopulateD_parity {o : Nat → Nat} {m : Int} {specs : List Value} :
    ∀ {n : Nat} {st st2 : DState},
      repeatPopulateD o m specs n st = .ok st2 →
      st.descs.length = st.chosen.length →
      st2.descs.length = st2.chosen.length := by
  intro n
  induction n with
  | zero => intro st st2 h hp; cases h; exact hp
  | succ n ih =>
    intro st st2 h hp
    rw [repeatPopulateD] at h
    split at h
    · cases h
    next st1 hpop => exact ih h (populateD_parity hpop hp)

/-! ## The claims -/

/-- C1: for every slot whose filter specification is a mapping, every layer
retained by applying the specification to a pool — and hence every item
newly chosen for that slot — satisfies each attribute-name clause: for each
key of the mapping (with `team` expanded to `team1`, `team2`), the layer's
value under at least one expanded key is contained in the accepted-values
list (upgraded to a singleton list when scalar), and all clauses hold
simultaneously (AND across keys, OR across values). -/
theorem claim_C1 :
    (∀ (pool : List Value) (d : List (String × Value)) (layer : Value),
      layer ∈ apply_filter_config pool (.vDict d) →
      ∀ kv ∈ d, clauseSat layer kv.1 kv.2) ∧
    (∀ (o : Nat → Nat) (m : Int) (st : BState) (d : List (String × Value))
      (st2 : BState),
      populateStep o m st (.vDict d) = .ok st2 →
      ∀ layer ∈ st2.chosen, layer ∈ st.chosen ∨ ∀ kv ∈ d, clauseSat layer kv.1 kv.2) := by
  constructor
  · intro pool d layer hmem kv hkv
    exact mem_foldClauses_sat d pool hmem kv hkv
  · intro o m st d st2 h layer hmem
    rcases populateStep_cases h with ⟨_, h2⟩ | ⟨cand, cc, flag, _, _, hcand, h2⟩
    · subst h2
      exact Or.inl hmem
    · subst h2
      rcases List.mem_append.mp hmem with h1 | h1
      · exact Or.inl h1
      · rw [List.mem_singleton.mp h1]
        exact Or.inr (fun kv hkv => mem_foldClauses_sat d st.remaining hcand kv hkv)

theorem claim_C1_witness :
    clauseSat exLayerA "gamemode" (.vStr "AAS") :=
  claim_C1.1 [exLayerA] [("gamemode", .vStr "AAS")] exLayerA (by decide)
    ("gamemode", .vStr "AAS") (by decide)

/-- C2: for every rotation configuration and every catalog whose items are
pairwise distinct, the rotation returned by get_map_rotation contains each
item at most once; when the identifiers are pairwise distinct, no chosen
item's identifier (`layer` field) appears twice — across the seeding phase
and all repetitions of the pattern phase. -/
theorem claim_C2 (o : Nat → Nat) (cfg : Value) (layers : List Value) (m : Int)
    (r : List Value) (h : get_map_rotation o cfg layers m = .ok r) :
    (layers.Nodup → r.Nodup) ∧
    ((layers.map (fun l => pyGet l "layer")).Nodup →
      (r.map (fun l => pyGet l "layer")).Nodup) := by
  obtain ⟨st, hbs, hr⟩ := get_map_rotation_ok h
  subst hr
  have hperm := buildState_perm hbs
  constructor
  · intro hnd
    exact (hperm.symm.nodup hnd).of_append_left
  · intro hnd
    have h2 := hperm.map (fun l => pyGet l "layer")
    rw [List.map_append] at h2
    exact (h2.symm.nodup hnd).of_append_left

theorem claim_C2_witness :
    ([exLayerA, exLayerB] : List Value).Nodup ∧
    ([exLayerA, exLayerB].map (fun l => pyGet l "layer")).Nodup := by
  have h := claim_C2 (fun _ => 0) cfgAnyTwo [exLayerA, exLayerB] 3
    [exLayerA, exLayerB] (by decide)
  exact ⟨h.1 (by decide), h.2 (by decide)⟩

/-- C3 counterexample: get_nonduplicate_map does raise on some non-empty
pools — a pool whose only layer lacks the `map` key makes the very first
draw's `candidate_layer['map']` subscript (line 125) raise KeyError, so
"never raises" fails as claimed. -/
theorem claim_C3_counterexample :
    get_nonduplicate_map (fun _ => 0) 0 [.vDict [("layer", .vStr "L")]] [] 3 =
      .error (.keyError "map") := by decide

/-- C3 (amended): for every non-empty candidate pool whose layers carry the
`map` and `layer` keys, every rotation-so-far whose recency-window entries
carry the `map` key and a string-valued `layer` field, and every
minimum-distance integer, get_nonduplicate_map returns a member of the pool
and never raises; and whenever the returned item's `map` field occurs among
the `map` fields of the recency window, all 100 bounded draws collided, the
error was logged (the flag is set) and the returned item is the last drawn
candidate. -/
theorem claim_C3 (o : Nat → Nat) (c : Nat) (pool chosen_rotation : List Value)
    (m : Int) (hpool : pool ≠ [])
    (hpm : ∀ l ∈ pool, hasKey l "map" = true)
    (hpl : ∀ l ∈ pool, hasKey l "layer" = true)
    (hwm : ∀ l ∈ avoidLayers chosen_rotation m, hasKey l "map" = true)
    (hwl : ∀ l ∈ avoidLayers chosen_rotation m, hasKey l "layer" = true)
    (hws : ∀ l ∈ avoidLayers chosen_rotation m, isStr (pyGet l "layer") = true) :
    ∃ cand c2 flag,
      get_nonduplicate_map o c pool chosen_rotation m = .ok (cand, c2, flag) ∧
      cand ∈ pool ∧
      (pyGet cand "map" ∈ avoidMaps chosen_rotation m →
        flag = true ∧ c2 = c + 100 ∧ cand = pyChoice o (c + 99) pool ∧
          ∀ i < 100,
            pyGet (pyChoice o (c + i) pool) "map" ∈ avoidMaps chosen_rotation m) := by
  obtain ⟨cand, c2, flag, heq, hmem⟩ :=
    nondupLoop_ok hpool hpm hpl hwm hwl hws 100 c (by omega)
  refine ⟨cand, c2, flag, heq, hmem, ?_⟩
  intro hcol
  cases flag with
  | false => exact absurd hcol (nondupLoop_flag_false heq)
  | true =>
    obtain ⟨h1, h2, h3⟩ := nondupLoop_flag_true heq
    have h99 : c + 100 - 1 = c + 99 := by omega
    rw [h99] at h2
    exact ⟨rfl, h1, h2, h3⟩

theorem claim_C3_witness :
    get_nonduplicate_map (fun _ => 0) 0 [exLayerA] [] 3 = .ok (exLayerA, 1, false) := by
  obtain ⟨-, -, -, -, -, -⟩ := claim_C3 (fun _ => 0) 0 [exLayerA] [] 3 (by decide)
    (by decide) (by decide) (by decide) (by decide) (by decide)
  decide

/-- C5 counterexample: get_map_rotation itself performs no defect
filtering — a catalog containing a bugged layer handed directly to it
yields a rotation containing that bugged layer, so the claim fails for a
caller that did not pre-filter. -/
theorem claim_C5_counterexample :
    get_map_rotation (fun _ => 0) cfgMinimal [exLayerBugged] 3 = .ok [exLayerBugged] ∧
    pyTruthy (pyGet exLayerBugged "bugged") = true := by decide

/-- C5 (amended): the defect filter lives in the catalog loader
(`get_json_layers`, embedded as `filterBugged`), not in the builder; every
rotation built from the loader's output — as in `main` — contains no layer
whose `bugged` flag is truthy. -/
theorem claim_C5 (o : Nat → Nat) (cfg : Value) (all_layers : List Value)
    (m : Int) (r : List Value)
    (h : get_map_rotation o cfg (filterBugged all_layers) m = .ok r) :
    ∀ layer ∈ r, pyTruthy (pyGet layer "bugged") = false := by
  intro layer hmem
  obtain ⟨st, hbs, hr⟩ := get_map_rotation_ok h
  subst hr
  have hperm := buildState_perm hbs
  have hmem2 : layer ∈ filterBugged all_layers :=
    hperm.subset (List.mem_append.mpr (Or.inl hmem))
  have hfil := List.mem_filter.mp hmem2
  simpa using hfil.2

theorem claim_C5_witness : pyTruthy (pyGet exLayerA "bugged") = false :=
  claim_C5 (fun _ => 0) cfgMinimal [exLayerA, exLayerBugged] 3 [exLayerA]
    (by decide) exLayerA (by decide)

/-- C6: the description-carrying builder returns, alongside the chosen
rotation, a parallel descriptions sequence of exactly the same length (one
description per non-skipped slot). Modelled from the spec: the function is
exercised by the repository's tests but absent from the provided source. -/
theorem claim_C6 (o : Nat → Nat) (cfg : Value) (layers : List Value) (m : Int)
    (rot : List Value) (descs : List (List String))
    (h : get_map_rotation_and_descriptions o cfg layers m = .ok (rot, descs)) :
    descs.length = rot.length := by
  rw [get_map_rotation_and_descriptions] at h
  split at h
  · cases h
  next startSpecs h1 =>
    split at h
    · cases h
    next st1 h2 =>
      split at h
      · cases h
      next n h3 =>
        split at h
        · cases h
        next regSpecs h4 =>
          split at h
          · cases h
          next st2 h5 =>
            cases h
            exact repeatPopulateD_parity h5 (populateD_parity h2 rfl)

theorem claim_C6_witness :
    ([["any"]] : List (List String)).length = ([exLayerA] : List Value).length :=
  claim_C6 (fun _ => 0) cfgMinimal [exLayerA] 3 [exLayerA] [["any"]] (by decide)

/-- C8 counterexample: a candidate whose `team1` and `team2` values are both
contained in a `team` clause's accepted-values list occurs twice, not once,
in the filtered result — the comprehension emits a layer once per matching
alias-expanded key. -/
theorem claim_C8_counterexample :
    apply_filter_config [exLayerA] (.vDict [("team", .vList [.vStr "US", .vStr "RU"])]) =
      [exLayerA, exLayerA] := by decide

/-- C8 (amended): applying a specification always yields candidates drawn
from the pool, and for a mapping with no `team` clause the result is exactly
the pool filtered by the conjunction of the clauses — each candidate occurs
at most once, exactly once if it matches; under a `team` clause a candidate
occurs once per matching alias-expanded key (twice when both team values are
accepted, per the counterexample). -/
theorem claim_C8 :
    (∀ (pool : List Value) (fc : Value) (x : Value),
      x ∈ apply_filter_config pool fc → x ∈ pool) ∧
    (∀ (pool : List Value) (d : List (String × Value)),
      (∀ kv ∈ d, kv.1 ≠ "team") →
      apply_filter_config pool (.vDict d) =
        pool.filter
          (fun l => d.all (fun kv => decide (pyGet l kv.1 ∈ upgrade_to_list kv.2)))) :=
  ⟨fun _ _ _ h => apply_filter_config_subset h,
   fun pool d hnt => apply_filter_config_noTeam d pool hnt⟩

theorem claim_C8_witness :
    apply_filter_config [exLayerA, exLayerB] (.vDict [("gamemode", .vStr "AAS")]) =
      [exLayerA, exLayerB].filter
        (fun l => [("gamemode", Value.vStr "AAS")].all
          (fun kv => decide (pyGet l kv.1 ∈ upgrade_to_list kv.2))) :=
  claim_C8.2 [exLayerA, exLayerB] [("gamemode", .vStr "AAS")] (by decide)

/-- C9: a slot whose filtered subset is empty leaves the chosen rotation,
the working pool, the draw counter and the selector-call record exactly
unchanged, appends the error log entry, and returns normally (the builder
continues with the next slot); consequently, across a whole builder run the
selector is never invoked with an empty candidate pool. -/
theorem claim_C9 :
    (∀ (o : Nat → Nat) (m : Int) (st : BState) (fc : Value),
      apply_filter_config st.remaining fc = [] →
      populateStep o m st fc = .ok { st with logs := st.logs ++ [noMapsMsg] }) ∧
    (∀ (o : Nat → Nat) (cfg : Value) (layers : List Value) (m : Int) (st : BState),
      buildState o cfg layers m = .ok st → ∀ p ∈ st.calls, p ≠ []) := by
  constructor
  · intro o m st fc hemp
    simp [populateStep, hemp]
  · exact fun o cfg layers m st h => buildState_callsNE h

theorem claim_C9_witness :
    populateStep (fun _ => 0) 3 ⟨[], [exLayerA], 0, [], []⟩
        (.vDict [("gamemode", .vStr "Nope")]) =
      .ok ⟨[], [exLayerA], 0, [noMapsMsg], []⟩ :=
  claim_C9.1 (fun _ => 0) 3 ⟨[], [exLayerA], 0, [], []⟩
    (.vDict [("gamemode", .vStr "Nope")]) (by decide)

/-- C10: a validated configuration without the `starting_maps` key fills
zero seeding slots — the builder defaults the seeding list to the empty
list (even though the validator validates the absent key as `['any']`) —
so the rotation has at most `number_of_repeats` times the length of
`regular_maps` entries, with no extra seeding item. -/
theorem claim_C10 (o : Nat → Nat) (c : List (String × Value))
    (layers : List Value) (m : Int) (r : List Value)
    (habsent : c.find? (fun kv => kv.1 == "starting_maps") = none)
    (hval : validate_config (.vDict c) (.vList layers) = .ok ())
    (h : get_map_rotation o (.vDict c) layers m = .ok r) :
    pyGetD (.vDict c) "starting_maps" (.vList []) = .vList [] ∧
    r.length ≤ repeatsOf (.vDict c) * (regularSpecs (.vDict c)).length := by
  have hdefault : pyGetD (.vDict c) "starting_maps" (.vList []) = .vList [] :=
    pyGetD_of_find_none habsent
  refine ⟨hdefault, ?_⟩
  obtain ⟨st, hbs, hr⟩ := get_map_rotation_ok h
  obtain ⟨startSpecs, st1, n, regSpecs, h1, h2, h3, h4, h5⟩ := buildState_stages hbs
  rw [hdefault] at h1
  simp only [pyIterList] at h1
  cases h1
  rw [populate_chosen_rotation] at h2
  cases h2
  have hvc := validateConfigChecked_ok (validate_config_ok_vList hval)
  obtain ⟨rmL, hrmL, _⟩ := isNonEmptyList_vList hvc.1
  rw [hrmL] at h4
  simp only [pyIterList] at h4
  cases h4
  have h3b := pyRangeCount_repeatsOf hvc.2
  rw [h3] at h3b
  cases h3b
  have hlen := repeatPopulate_len h5
  have hreg : regularSpecs (.vDict c) = regSpecs := by
    rw [regularSpecs, hrmL]
  subst hr
  rw [hreg]
  simpa using hlen

/-- A configuration referencing the filter key `nope` (absent from the
catalog layer below) while its `starting_maps` key is present with a null
value. -/
def cfgBadKeyNullStart : Value :=
  .vDict [("regular_maps", .vList [.vDict [("nope", .vStr "x")]]),
    ("starting_maps", .vNull)]

/-- C4 counterexample: this configuration references the filter key `nope`,
which is absent from the only catalog layer, yet validate_config does not
raise InvalidConfigException for it — a TypeError escapes instead, because
the present-but-null `starting_maps` bypasses the guarded list check and is
then iterated. -/
theorem claim_C4_counterexample :
    pyGet exLayerA "nope" = Value.vNull ∧
    validate_config cfgBadKeyNullStart (.vList [exLayerA]) =
      .error (.typeError "object is not iterable") ∧
    isInvalidConfigErr (validate_config cfgBadKeyNullStart (.vList [exLayerA])) =
      false := by decide

/-- C4 (amended): for every mapping configuration, validate_config raises
InvalidConfigException when `regular_maps` is missing or not a non-empty
list, and when `number_of_repeats` is present and not a positive integer
(Python bools counting as ints); provided `starting_maps` is not present
with a null value — in which case a TypeError escapes instead — it raises
InvalidConfigException for every mapping configuration referencing a filter
key (other than the team alias when both `team1` and `team2` exist on all
layers) that is absent or null on at least one catalog layer; a non-mapping
configuration (such as the `None` that `yaml.load` returns for an empty
file) instead escapes with an AttributeError at `config.get`; and
validate_config returns normally for the minimal configuration against any
non-empty catalog of mappings. -/
theorem claim_C4 :
    (∀ (c : List (String × Value)) (lv : Value),
      isNonEmptyList (pyGet (.vDict c) "regular_maps") = false →
      isInvalidConfigErr (validate_config (.vDict c) lv) = true) ∧
    (∀ (c : List (String × Value)) (lv : Value) (kv0 : String × Value),
      c.find? (fun kv => kv.1 == "number_of_repeats") = some kv0 →
      repeatsValid kv0.2 = false →
      isInvalidConfigErr (validate_config (.vDict c) lv) = true) ∧
    (∀ (c : List (String × Value)) (ls : List Value),
      vNotNull (pyGetD (.vDict c) "starting_maps" (.vList [.vStr "any"])) = true →
      BadKeyRef c ls →
      isInvalidConfigErr (validate_config (.vDict c) (.vList ls)) = true) ∧
    (∀ (config : Value) (ls : List Value), isDict config = false → ls ≠ [] →
      ls.all isDict = true →
      validate_config config (.vList ls) = .error (.attributeError attrGetMsg)) ∧
    (∀ ls : List Value, ls ≠ [] → ls.all isDict = true →
      validate_config cfgMinimal (.vList ls) = .ok ()) :=
  ⟨fun _ _ h => validate_invalid_regular h,
   fun _ _ _ hf hr => validate_invalid_repeats hf hr,
   fun _ _ hs hb => validate_invalid_badkey hs hb,
   fun _ _ hnd hne hd => validate_config_nonmapping hnd hne hd,
   validate_config_minimal⟩

theorem claim_C4_witness :
    validate_config cfgMinimal (.vList [exLayerA]) = .ok () ∧
    isInvalidConfigErr (validate_config (.vDict []) (.vList [exLayerA])) = true ∧
    validate_config .vNull (.vList [exLayerA]) = .error (.attributeError attrGetMsg) :=
  ⟨claim_C4.2.2.2.2 [exLayerA] (by decide) (by decide),
   claim_C4.1 [] (.vList [exLayerA]) (by decide),
   claim_C4.2.2.2.1 .vNull [exLayerA] (by decide) (by decide) (by decide)⟩

/-- The minimal valid configuration with an added present-but-null
`starting_maps` key. -/
def cfgNullStart : Value :=
  .vDict [("regular_maps", .vList [.vStr "any"]), ("starting_maps", .vNull)]

/-- C7: evaluation of the code at the failing input — a configuration whose
`starting_maps` key is present with a null value makes validate_config raise
a TypeError (iterating `None` in validate_helper), not the distinguished
InvalidConfigException: the `is not None` guard at line 313 skips the list
check for null and the null section is then iterated at line 325. -/
theorem claim_C7 :
    validate_config cfgNullStart (.vList [exLayerA]) =
      .error (.typeError "object is not iterable") ∧
    isInvalidConfigErr (validate_config cfgNullStart (.vList [exLayerA])) = false := by
  decide

theorem claim_C10_witness :
    pyGetD cfgMinimal "starting_maps" (.vList []) = .vList [] ∧
    ([exLayerA] : List Value).length ≤
      repeatsOf cfgMinimal * (regularSpecs cfgMinimal).length :=
  claim_C10 (fun _ => 0) [("regular_maps", .vList [.vStr "any"])] [exLayerA] 3
    [exLayerA] (by decide) (by decide) (by decide)

end SquadMapRandomizer

